import Mathlib

/-!
# Verification of the Spot beacon decoder (`src/model/Beacon.ts`)

Shallow embedding of the `Beacon` class.  JavaScript strings are modelled as
`List Char` (wrapped in Lean `String` where the source holds a string value);
JavaScript numbers that are known to carry integer values (`parseInt` results,
`rssi`) are modelled as `ℤ`/`ℕ`, with `Option` capturing `NaN` propagation
(`none` = `NaN`); the floating-point `distance` is modelled over `ℝ` with
`Real.rpow` for `Math.pow`.
-/

namespace Spot

/-- JS `String.prototype.substr(start, len)` for non-negative arguments:
the chunk of at most `len` characters starting at index `start`. -/
def substr (s : List Char) (start len : ℕ) : List Char :=
  (s.drop start).take len

/-- The white-space characters skipped by JS `parseInt` (space, tab, LF, CR,
vertical tab, form feed, NBSP, BOM), identified by code point. -/
def isJsWhitespace (c : Char) : Bool :=
  c.toNat == 32 || c.toNat == 9 || c.toNat == 10 || c.toNat == 13 ||
  c.toNat == 11 || c.toNat == 12 || c.toNat == 160 || c.toNat == 65279

/-- The numeric value of a character as a JS digit: `'0'`–`'9'` (code points
48–57) are 0–9, `'a'`–`'z'` (97–122) are 10–35, `'A'`–`'Z'` (65–90) are
10–35; anything else is not a digit. -/
def charDigitVal (c : Char) : Option ℕ :=
  if 48 ≤ c.toNat ∧ c.toNat ≤ 57 then some (c.toNat - 48)
  else if 97 ≤ c.toNat ∧ c.toNat ≤ 122 then some (c.toNat - 87)
  else if 65 ≤ c.toNat ∧ c.toNat ≤ 90 then some (c.toNat - 55)
  else none

/-- A character's digit value under a given radix (JS digit semantics:
the value must be below the radix). -/
def digitVal (radix : ℕ) (c : Char) : Option ℕ :=
  match charDigitVal c with
  | some v => if v < radix then some v else none
  | none => none

/-- The digit-consuming loop of JS `parseInt`: accumulate digits until the
first non-digit character, returning the accumulated value. -/
def parseDigitsAcc (radix : ℕ) : List Char → ℕ → ℕ
  | [], acc => acc
  | c :: rest, acc =>
    match digitVal radix c with
    | some d => parseDigitsAcc radix rest (acc * radix + d)
    | none => acc

/-- JS `parseInt` digit phase: `NaN` (`none`) when the string does not start
with a digit of the radix, otherwise the value of the longest digit run. -/
def jsParseIntCore (radix : ℕ) : List Char → Option ℕ
  | [] => none
  | c :: rest =>
    match digitVal radix c with
    | some d => some (parseDigitsAcc radix rest d)
    | none => none

/-- For radix 16, JS `parseInt` strips a leading `0x`/`0X` marker. -/
def stripHexMarker (radix : ℕ) (l : List Char) : List Char :=
  if radix = 16 then
    match l with
    | c₀ :: c₁ :: rest => if c₀ = '0' ∧ (c₁ = 'x' ∨ c₁ = 'X') then rest else l
    | _ => l
  else l

/-- JS `parseInt(string, radix)` for radix 16/36 as used by the source:
skip leading white space, read an optional sign, strip a `0x` marker
(radix 16 only), then parse the longest digit run; `none` models `NaN`. -/
def jsParseInt (l : List Char) (radix : ℕ) : Option ℤ :=
  match l.dropWhile isJsWhitespace with
  | [] => none
  | c :: rest =>
    if c = '-' then (jsParseIntCore radix (stripHexMarker radix rest)).map (fun n => -(n : ℤ))
    else if c = '+' then (jsParseIntCore radix (stripHexMarker radix rest)).map (fun n => (n : ℤ))
    else (jsParseIntCore radix (stripHexMarker radix (c :: rest))).map (fun n => (n : ℤ))

/-- The character JS uses for digit value `d` in positional renderings
(`Number.prototype.toString(radix)`): `0`–`9` then lowercase `a`–`z`. -/
def digitChar (d : ℕ) : Char :=
  if d < 10 then Char.ofNat (48 + d) else Char.ofNat (87 + d)

/-- JS `n.toString(36)` for a non-negative integer: `"0"` for zero, else the
big-endian base-36 digits rendered with `digitChar` (lowercase). -/
def natToBase36 (n : ℕ) : List Char :=
  if n = 0 then ['0'] else (Nat.digits 36 n).reverse.map digitChar

/-- JS `n.toString(36)` including the sign for negative integers. -/
def intToBase36 (i : ℤ) : List Char :=
  if i < 0 then '-' :: natToBase36 i.natAbs else natToBase36 i.toNat

/-- The positional base-`radix` value of a digit string (the claim-level
meaning of "parse the concatenation as a base-16 integer"). -/
def digitsVal (radix : ℕ) (l : List Char) : ℕ :=
  l.foldl (fun acc c => acc * radix + (digitVal radix c).getD 0) 0

/-- The `PROXIMITY` string constants of the source. -/
def PROXIMITY.IMMEDIATE : String := "immediate"

/-- The `PROXIMITY` string constants of the source. -/
def PROXIMITY.NEAR : String := "near"

/-- The `PROXIMITY` string constants of the source. -/
def PROXIMITY.FAR : String := "far"

/-- The `PROXIMITY` string constants of the source. -/
def PROXIMITY.UNKNOWN : String := "unknown"

/-- The `Beacon` value object.  `distance` is `Option ℝ`: `none` models the
JS `NaN` that arises when the transmit-power hex parse fails.  `lastSeen`
is the `Date.now()` timestamp captured at construction, passed explicitly
as a clock value. -/
structure Beacon where
  uuid : String
  joinCode : String
  distance : Option ℝ
  proximity : String
  lastSeen : ℕ

/-- The proximity chosen by `parse` from the computed distance, mirroring the
source's `if (distance < 1) … else if (distance < 3) … else …` chain.  A `NaN`
distance (`none`) fails both `<` tests in JS, so it lands in the `else`
branch: `far`. -/
noncomputable def proximityOf (distance : Option ℝ) : String :=
  match distance with
  | none => PROXIMITY.FAR
  | some d => if d < 1 then PROXIMITY.IMMEDIATE else if d < 3 then PROXIMITY.NEAR else PROXIMITY.FAR

/-- The `uuid` local of `parse`:
`` `${s.substr(0,8)}-${s.substr(8,4)}-${s.substr(12,4)}-${s.substr(16,4)}-${s.substr(20,12)}` ``. -/
def uuidOf (s : List Char) : String :=
  ⟨substr s 0 8 ++ '-' :: substr s 8 4 ++ '-' :: substr s 12 4 ++
    '-' :: substr s 16 4 ++ '-' :: substr s 20 12⟩

/-- The `major` local of `parse`: `dataString.substr(32, 4)`. -/
def majorOf (s : List Char) : List Char := substr s 32 4

/-- The `minor` local of `parse`: `dataString.substr(36, 4)`. -/
def minorOf (s : List Char) : List Char := substr s 36 4

/-- The `joinCode` local of `parse`:
`parseInt(`${major}${minor}`, 16).toString(36)`; `NaN.toString(36)` is the
string `"NaN"`. -/
def joinCodeOf (s : List Char) : String :=
  match jsParseInt (majorOf s ++ minorOf s) 16 with
  | none => "NaN"
  | some v => ⟨intToBase36 v⟩

/-- The `power` local of `parse`: `parseInt(dataString.substr(40, 2), 16) - 256`
(`none` models `NaN`). -/
def powerOf (s : List Char) : Option ℤ :=
  (jsParseInt (substr s 40 2) 16).map (fun v => v - 256)

/-- The `distance` local of `parse`:
`Math.pow(10, (power - rssi) / (10 * 2))`; `NaN` propagates. -/
noncomputable def distanceOf (s : List Char) (rssi : ℤ) : Option ℝ :=
  (powerOf s).map (fun p : ℤ => (10 : ℝ) ^ (((p : ℝ) - (rssi : ℝ)) / (10 * 2)))

/-- `Beacon.parse(dataString, rssi)`.  The declared return type of the source
is `Beacon | null`, modelled as `Option Beacon`; the body unconditionally ends
in `return new Beacon(uuid, joinCode, distance, proximity)`, so the embedding
unconditionally returns `some`.  The constructor's `Date.now()` is passed as
the explicit clock value `now`. -/
noncomputable def Beacon.parse (dataString : String) (rssi : ℤ) (now : ℕ) : Option Beacon :=
  some ⟨uuidOf dataString.data, joinCodeOf dataString.data,
        distanceOf dataString.data rssi,
        proximityOf (distanceOf dataString.data rssi), now⟩

/-- `getRoundedDistance()`: `Math.round(this.distance * 10) / 10`.  JS
`Math.round` rounds to the nearest integer with ties toward `+∞`, which is
exactly Mathlib's `round` (`round x = ⌊x + 1/2⌋`); `Math.round(NaN)` is `NaN`. -/
noncomputable def Beacon.getRoundedDistance (b : Beacon) : Option ℝ :=
  b.distance.map (fun d => ((round (d * 10) : ℤ) : ℝ) / 10)

/-- JS strict equality `===` on two number values modelled as `Option ℝ`
(`none` = `NaN`): `NaN === x` is `false` for every `x`, including `NaN`. -/
def jsStrictEqNum : Option ℝ → Option ℝ → Prop
  | some x, some y => x = y
  | _, _ => False

/-- `jsStrictEqNum` is decidable by cases. -/
noncomputable instance instDecJsStrictEqNum : (a b : Option ℝ) → Decidable (jsStrictEqNum a b)
  | some x, some y => decidable_of_iff (x = y) Iff.rfl
  | some _, none => isFalse (fun h => h)
  | none, some _ => isFalse (fun h => h)
  | none, none => isFalse (fun h => h)

/-- `isEqual(b)`: `b && b.uuid === this.uuid && b.joinCode === this.joinCode
&& b.getRoundedDistance() === this.getRoundedDistance()`.  A nullish argument
short-circuits to a falsy result, modelled as `false`. -/
noncomputable def Beacon.isEqual (a : Beacon) (b : Option Beacon) : Bool :=
  match b with
  | none => false
  | some c =>
      (c.uuid == a.uuid) && (c.joinCode == a.joinCode) &&
      decide (jsStrictEqNum c.getRoundedDistance a.getRoundedDistance)

/-- Rounding to one decimal place with ties away from zero, as §4.1 of the
spec describes `roundedDistance` ("round-half-away-from-zero at the 0.1 m
granularity"); stated from the spec's words for comparison with the source's
`Math.round`-based rounding. -/
noncomputable def roundHalfAwayTenth (d : ℝ) : ℝ :=
  if 0 ≤ d then ((⌊d * 10 + 1 / 2⌋ : ℤ) : ℝ) / 10
  else -(((⌊-d * 10 + 1 / 2⌋ : ℤ) : ℝ) / 10)

/-- The spec's §8 end-to-end example payload: manufacturer bytes `AABBCCDD`,
identity hex `1234567890ABCDEF1234567890ABCDEF`, major `00000003`, minor
`00000007`, transmit-power byte `C6`. -/
def examplePayload : String :=
  "AABBCCDD1234567890ABCDEF1234567890ABCDEF0000000300000007C6"

/-- A 42-character payload whose transmit-power byte (offset 40) is `C6`,
for the spec's power/distance example (`C6` = 198, 198 − 256 = −58). -/
def examplePayloadC6 : String :=
  "0000000000000000000000000000000000000000C6"

/-- A 42-character payload whose transmit-power byte is `C5` (197 − 256 =
−59), one unit below `examplePayloadC6`, to witness monotonicity in the
transmit power. -/
def examplePayloadC5 : String :=
  "0000000000000000000000000000000000000000C5"

/-- Modelled from the spec: the transmitter-side encoding of a join code
(not part of `src/`; §4 "Join code derivation" describes its inverse, §8
states the round-trip property).  The base-36 string `S` is parsed as a
base-36 integer, the value rendered as zero-padded 8-digit base-16 and split
into the 4-digit major and minor fields; the payload carries them at offsets
32–35 and 36–39 after 32 filler characters, followed by a transmit-power
byte.  A `NaN` parse has no hex rendering, hence the `Option` result;
negative values are outside the encoding's range and are clamped by
`Int.toNat` (no claim below exercises either case). -/
def toHexPadded8 (n : ℕ) : List Char :=
  List.replicate (8 - ((Nat.digits 16 n).reverse.map digitChar).length) '0' ++
    (Nat.digits 16 n).reverse.map digitChar

/-- Modelled from the spec: the payload built by the transmitter-side
encoder for join-code string `S` (see `toHexPadded8`). -/
def encodePayload (S : List Char) : Option String :=
  (jsParseInt S 36).map (fun v =>
    ⟨List.replicate 32 '0' ++ toHexPadded8 v.toNat ++ ['c', '6']⟩)

/-! ## Helper lemmas -/

lemma parse_map_uuid (s : String) (rssi : ℤ) (now : ℕ) :
    (Beacon.parse s rssi now).map Beacon.uuid = some (uuidOf s.data) := rfl

lemma parse_map_joinCode (s : String) (rssi : ℤ) (now : ℕ) :
    (Beacon.parse s rssi now).map Beacon.joinCode = some (joinCodeOf s.data) := rfl

lemma parse_bind_distance (s : String) (rssi : ℤ) (now : ℕ) :
    (Beacon.parse s rssi now).bind Beacon.distance = distanceOf s.data rssi := rfl

lemma parse_eq_some {s : String} {rssi : ℤ} {now : ℕ} {b : Beacon}
    (h : Beacon.parse s rssi now = some b) :
    b = ⟨uuidOf s.data, joinCodeOf s.data, distanceOf s.data rssi,
         proximityOf (distanceOf s.data rssi), now⟩ :=
  (Option.some.inj h).symm

lemma charDigitVal_ranges {c : Char} {v : ℕ} (h : charDigitVal c = some v) :
    (48 ≤ c.toNat ∧ c.toNat ≤ 57) ∨ (97 ≤ c.toNat ∧ c.toNat ≤ 122) ∨
      (65 ≤ c.toNat ∧ c.toNat ≤ 90) := by
  unfold charDigitVal at h
  split_ifs at h with h1 h2 h3
  · exact Or.inl h1
  · exact Or.inr (Or.inl h2)
  · exact Or.inr (Or.inr h3)

lemma digitVal_charDigitVal {radix : ℕ} {c : Char} {v : ℕ}
    (h : digitVal radix c = some v) : charDigitVal c = some v ∧ v < radix := by
  unfold digitVal at h
  rcases hc : charDigitVal c with _ | w
  · rw [hc] at h; exact absurd h (by simp)
  · rw [hc] at h
    change (if w < radix then some w else none) = some v at h
    by_cases hw : w < radix
    · rw [if_pos hw, Option.some.injEq] at h
      subst h
      exact ⟨rfl, hw⟩
    · rw [if_neg hw] at h; exact absurd h (by simp)

lemma digitVal_not_ws {radix : ℕ} {c : Char} {v : ℕ}
    (h : digitVal radix c = some v) : isJsWhitespace c = false := by
  have hr := charDigitVal_ranges (digitVal_charDigitVal h).1
  simp only [isJsWhitespace, Bool.or_eq_false_iff, beq_eq_false_iff_ne, ne_eq]
  omega

lemma digitVal_ne_sign {radix : ℕ} {c : Char} {v : ℕ}
    (h : digitVal radix c = some v) : c ≠ '-' ∧ c ≠ '+' := by
  have hr := charDigitVal_ranges (digitVal_charDigitVal h).1
  constructor <;> intro hcc <;> subst hcc <;> revert hr <;> decide

lemma digitVal_ne_x {c : Char} {v : ℕ}
    (h : digitVal 16 c = some v) : ¬(c = 'x' ∨ c = 'X') := by
  rintro (hc | hc) <;> subst hc
  · rw [show digitVal 16 'x' = none from by decide] at h; exact Option.noConfusion h
  · rw [show digitVal 16 'X' = none from by decide] at h; exact Option.noConfusion h

lemma stripHexMarker_all_digits {radix : ℕ} {l : List Char}
    (h : ∀ c ∈ l, (digitVal radix c).isSome) : stripHexMarker radix l = l := by
  unfold stripHexMarker
  split_ifs with hr
  · subst hr
    match l, h with
    | [], _ => rfl
    | [c], _ => rfl
    | c₀ :: c₁ :: rest, h =>
      have h₁ : (digitVal 16 c₁).isSome := h c₁ (by simp)
      rcases hv : digitVal 16 c₁ with _ | v
      · rw [hv] at h₁; exact absurd h₁ (by simp)
      · have hng : ¬(c₀ = '0' ∧ (c₁ = 'x' ∨ c₁ = 'X')) := fun hg => digitVal_ne_x hv hg.2
        show (if c₀ = '0' ∧ (c₁ = 'x' ∨ c₁ = 'X') then rest else c₀ :: c₁ :: rest) =
          c₀ :: c₁ :: rest
        rw [if_neg hng]
  · rfl

lemma parseDigitsAcc_all {radix : ℕ} :
    ∀ (l : List Char) (acc : ℕ), (∀ c ∈ l, (digitVal radix c).isSome) →
      parseDigitsAcc radix l acc =
        l.foldl (fun a c => a * radix + (digitVal radix c).getD 0) acc := by
  intro l
  induction l with
  | nil => intro acc _; rfl
  | cons c rest ih =>
    intro acc h
    have hc : (digitVal radix c).isSome := h c (by simp)
    rcases hv : digitVal radix c with _ | v
    · rw [hv] at hc; exact absurd hc (by simp)
    · simp only [parseDigitsAcc, hv, List.foldl_cons, Option.getD_some]
      exact ih _ (fun d hd => h d (by simp [hd]))

lemma jsParseIntCore_all_digits {radix : ℕ} {c : Char} {rest : List Char}
    (h : ∀ d ∈ c :: rest, (digitVal radix d).isSome) :
    jsParseIntCore radix (c :: rest) = some (digitsVal radix (c :: rest)) := by
  have hc : (digitVal radix c).isSome := h c (by simp)
  rcases hv : digitVal radix c with _ | v
  · rw [hv] at hc; exact absurd hc (by simp)
  · simp only [jsParseIntCore, hv, digitsVal, List.foldl_cons, Option.getD_some,
      Nat.zero_mul, Nat.zero_add,
      parseDigitsAcc_all rest v (fun d hd => h d (by simp [hd]))]

/-- JS `parseInt` on a non-empty string made purely of digits of the radix is
the plain positional value of the digit string. -/
lemma jsParseInt_all_digits {radix : ℕ} {l : List Char} (hne : l ≠ [])
    (h : ∀ c ∈ l, (digitVal radix c).isSome) :
    jsParseInt l radix = some ((digitsVal radix l : ℕ) : ℤ) := by
  match l, hne with
  | c :: rest, _ =>
    have hc : (digitVal radix c).isSome := h c (by simp)
    rcases hv : digitVal radix c with _ | v
    · rw [hv] at hc; exact absurd hc (by simp)
    · have hws : isJsWhitespace c = false := digitVal_not_ws hv
      have hsign := digitVal_ne_sign hv
      unfold jsParseInt
      rw [List.dropWhile_cons, hws]
      simp only [Bool.false_eq_true, if_false]
      rw [if_neg hsign.1, if_neg hsign.2, stripHexMarker_all_digits h,
        jsParseIntCore_all_digits h]
      rfl

/-- Rendering a digit below 36 and reading it back under radix 36 round-trips. -/
lemma digitVal36_digitChar : ∀ d < 36, digitVal 36 (digitChar d) = some d := by decide

/-- Rendering a digit below 16 and reading it back under radix 16 round-trips. -/
lemma digitVal16_digitChar : ∀ d < 16, digitVal 16 (digitChar d) = some d := by decide

lemma foldl_digitChar {radix : ℕ} (hr : radix = 16 ∨ radix = 36) :
    ∀ (ds : List ℕ) (acc : ℕ), (∀ d ∈ ds, d < radix) →
      (ds.map digitChar).foldl (fun a c => a * radix + (digitVal radix c).getD 0) acc =
        ds.foldl (fun a d => a * radix + d) acc := by
  intro ds
  induction ds with
  | nil => intro acc _; rfl
  | cons d tl ih =>
    intro acc h
    have hd : digitVal radix (digitChar d) = some d := by
      rcases hr with h16 | h36
      · subst h16; exact digitVal16_digitChar d (h d (by simp))
      · subst h36; exact digitVal36_digitChar d (h d (by simp))
    simp only [List.map_cons, List.foldl_cons, hd, Option.getD_some]
    exact ih _ (fun e he => h e (by simp [he]))

/-- Big-endian Horner evaluation expressed through `Nat.ofDigits` of the
reversed (little-endian) digit list. -/
lemma foldl_horner (b : ℕ) :
    ∀ (ds : List ℕ) (acc : ℕ),
      ds.foldl (fun a d => a * b + d) acc =
        acc * b ^ ds.length + Nat.ofDigits b ds.reverse := by
  intro ds
  induction ds with
  | nil => intro acc; simp
  | cons d tl ih =>
    intro acc
    rw [List.foldl_cons, ih, List.reverse_cons, Nat.ofDigits_append]
    simp only [List.length_cons, List.length_reverse, Nat.ofDigits_singleton]
    ring

lemma digitsVal_natToBase36 (n : ℕ) : digitsVal 36 (natToBase36 n) = n := by
  unfold natToBase36
  by_cases h : n = 0
  · subst h; decide
  · rw [if_neg h]
    unfold digitsVal
    rw [foldl_digitChar (Or.inr rfl) _ 0
        (fun d hd => Nat.digits_lt_base (by norm_num) (List.mem_reverse.mp hd)),
      foldl_horner, List.reverse_reverse, Nat.ofDigits_digits]
    simp

lemma natToBase36_ne_nil (n : ℕ) : natToBase36 n ≠ [] := by
  unfold natToBase36
  by_cases h : n = 0
  · simp [h]
  · rw [if_neg h]
    simp [Nat.digits_ne_nil_iff_ne_zero, h]

lemma natToBase36_digits (n : ℕ) : ∀ c ∈ natToBase36 n, (digitVal 36 c).isSome := by
  unfold natToBase36
  by_cases h : n = 0
  · intro c hc
    rw [if_pos h] at hc
    rw [List.mem_singleton.mp hc]
    decide
  · intro c hc
    rw [if_neg h] at hc
    rcases List.mem_map.mp hc with ⟨d, hd, rfl⟩
    rw [digitVal36_digitChar d (Nat.digits_lt_base (by norm_num) (List.mem_reverse.mp hd))]
    rfl

/-- `parseInt(n.toString(36), 36)` gives back `n`: the canonical base-36
rendering of a natural number parses to its value. -/
lemma jsParseInt_natToBase36 (n : ℕ) : jsParseInt (natToBase36 n) 36 = some (n : ℤ) := by
  rw [jsParseInt_all_digits (natToBase36_ne_nil n) (natToBase36_digits n),
    digitsVal_natToBase36]

lemma foldl_replicate_zero :
    ∀ k : ℕ, (List.replicate k '0').foldl
      (fun a c => a * 16 + (digitVal 16 c).getD 0) 0 = 0 := by
  intro k
  induction k with
  | zero => rfl
  | succ m ih => simpa [List.replicate_succ] using ih

lemma digitsVal_toHexPadded8 (n : ℕ) : digitsVal 16 (toHexPadded8 n) = n := by
  unfold toHexPadded8 digitsVal
  rw [List.foldl_append, foldl_replicate_zero,
    foldl_digitChar (Or.inl rfl) _ 0
      (fun d hd => Nat.digits_lt_base (by norm_num) (List.mem_reverse.mp hd)),
    foldl_horner, List.reverse_reverse, Nat.ofDigits_digits]
  simp

lemma toHexPadded8_ne_nil (n : ℕ) : toHexPadded8 n ≠ [] := by
  unfold toHexPadded8
  intro h
  rcases List.append_eq_nil.mp h with ⟨h1, h2⟩
  rw [List.map_eq_nil_iff, List.reverse_eq_nil_iff] at h2
  rw [h2] at h1
  simp at h1

lemma toHexPadded8_digits (n : ℕ) : ∀ c ∈ toHexPadded8 n, (digitVal 16 c).isSome := by
  unfold toHexPadded8
  intro c hc
  rcases List.mem_append.mp hc with hrep | hmap
  · rw [List.eq_of_mem_replicate hrep]; decide
  · rcases List.mem_map.mp hmap with ⟨d, hd, rfl⟩
    rw [digitVal16_digitChar d (Nat.digits_lt_base (by norm_num) (List.mem_reverse.mp hd))]
    rfl

/-- `parseInt` under radix 16 reads the zero-padded hex rendering back to its
value. -/
lemma jsParseInt_toHexPadded8 (n : ℕ) :
    jsParseInt (toHexPadded8 n) 16 = some (n : ℤ) := by
  rw [jsParseInt_all_digits (toHexPadded8_ne_nil n) (toHexPadded8_digits n),
    digitsVal_toHexPadded8]

lemma toHexPadded8_length {n : ℕ} (h : n < 2 ^ 32) : (toHexPadded8 n).length = 8 := by
  unfold toHexPadded8
  rw [List.length_append, List.length_replicate, List.length_map, List.length_reverse]
  have hlen : (Nat.digits 16 n).length ≤ 8 := by
    by_cases hn : n = 0
    · simp [hn]
    · have h16 : n < 16 ^ 8 := by
        have : (16 : ℕ) ^ 8 = 2 ^ 32 := by norm_num
        omega
      have hlog := (Nat.lt_pow_iff_log_lt (by norm_num) hn).mp h16
      rw [Nat.digits_len 16 n (by norm_num) hn]
      omega
  omega

lemma drop_append_exact {l₁ l₂ : List Char} {n : ℕ} (h : l₁.length = n) :
    (l₁ ++ l₂).drop n = l₂ := by
  rw [← h]; exact List.drop_left l₁ l₂

lemma take_append_exact {l₁ l₂ : List Char} {n : ℕ} (h : l₁.length = n) :
    (l₁ ++ l₂).take n = l₁ := by
  rw [← h]; exact List.take_left l₁ l₂


lemma substr_zero (s : List Char) (k : ℕ) : substr s 0 k = s.take k := by
  unfold substr
  rw [List.drop_zero]

lemma major_minor_append {pre hex tail : List Char} (hpre : pre.length = 32)
    (hhex : hex.length = 8) :
    majorOf (pre ++ hex ++ tail) ++ minorOf (pre ++ hex ++ tail) = hex := by
  have hd32 : (pre ++ hex ++ tail).drop 32 = hex ++ tail := by
    rw [List.append_assoc]
    exact drop_append_exact hpre
  have hmaj : majorOf (pre ++ hex ++ tail) = hex.take 4 := by
    show ((pre ++ hex ++ tail).drop 32).take 4 = hex.take 4
    rw [hd32, List.take_append_eq_append_take, hhex]
    simp
  have hd36 : (pre ++ hex ++ tail).drop 36 = hex.drop 4 ++ tail := by
    have hdd : List.drop 4 (List.drop 32 (pre ++ hex ++ tail)) =
        List.drop 36 (pre ++ hex ++ tail) := by
      rw [List.drop_drop]
    rw [← hdd, hd32, List.drop_append_eq_append_drop, hhex]
    simp
  have hmin : minorOf (pre ++ hex ++ tail) = hex.drop 4 := by
    show ((pre ++ hex ++ tail).drop 36).take 4 = hex.drop 4
    rw [hd36, List.take_append_eq_append_take, List.length_drop, hhex,
      List.take_of_length_le (by rw [List.length_drop, hhex])]
    simp
  rw [hmaj, hmin, List.take_append_drop]

lemma uuidOf_decomp {g1 g2 g3 g4 g5 rest : List Char}
    (h1 : g1.length = 8) (h2 : g2.length = 4) (h3 : g3.length = 4)
    (h4 : g4.length = 4) (h5 : g5.length = 12) :
    uuidOf (g1 ++ g2 ++ g3 ++ g4 ++ g5 ++ rest) =
      ⟨g1 ++ '-' :: g2 ++ '-' :: g3 ++ '-' :: g4 ++ '-' :: g5⟩ := by
  have d8 : (g1 ++ g2 ++ g3 ++ g4 ++ g5 ++ rest).drop 8 = g2 ++ g3 ++ g4 ++ g5 ++ rest := by
    simp only [List.append_assoc]
    exact drop_append_exact h1
  have d12 : (g1 ++ g2 ++ g3 ++ g4 ++ g5 ++ rest).drop 12 = g3 ++ g4 ++ g5 ++ rest := by
    have hdd : List.drop 4 (List.drop 8 (g1 ++ g2 ++ g3 ++ g4 ++ g5 ++ rest)) =
        List.drop 12 (g1 ++ g2 ++ g3 ++ g4 ++ g5 ++ rest) := by
      rw [List.drop_drop]
    rw [← hdd, d8]
    simp only [List.append_assoc]
    exact drop_append_exact h2
  have d16 : (g1 ++ g2 ++ g3 ++ g4 ++ g5 ++ rest).drop 16 = g4 ++ g5 ++ rest := by
    have hdd : List.drop 4 (List.drop 12 (g1 ++ g2 ++ g3 ++ g4 ++ g5 ++ rest)) =
        List.drop 16 (g1 ++ g2 ++ g3 ++ g4 ++ g5 ++ rest) := by
      rw [List.drop_drop]
    rw [← hdd, d12]
    simp only [List.append_assoc]
    exact drop_append_exact h3
  have d20 : (g1 ++ g2 ++ g3 ++ g4 ++ g5 ++ rest).drop 20 = g5 ++ rest := by
    have hdd : List.drop 4 (List.drop 16 (g1 ++ g2 ++ g3 ++ g4 ++ g5 ++ rest)) =
        List.drop 20 (g1 ++ g2 ++ g3 ++ g4 ++ g5 ++ rest) := by
      rw [List.drop_drop]
    rw [← hdd, d16]
    simp only [List.append_assoc]
    exact drop_append_exact h4
  have t0 : substr (g1 ++ g2 ++ g3 ++ g4 ++ g5 ++ rest) 0 8 = g1 := by
    rw [substr_zero]
    simp only [List.append_assoc]
    exact take_append_exact h1
  have t8 : substr (g1 ++ g2 ++ g3 ++ g4 ++ g5 ++ rest) 8 4 = g2 := by
    show ((g1 ++ g2 ++ g3 ++ g4 ++ g5 ++ rest).drop 8).take 4 = g2
    rw [d8]
    simp only [List.append_assoc]
    exact take_append_exact h2
  have t12 : substr (g1 ++ g2 ++ g3 ++ g4 ++ g5 ++ rest) 12 4 = g3 := by
    show ((g1 ++ g2 ++ g3 ++ g4 ++ g5 ++ rest).drop 12).take 4 = g3
    rw [d12]
    simp only [List.append_assoc]
    exact take_append_exact h3
  have t16 : substr (g1 ++ g2 ++ g3 ++ g4 ++ g5 ++ rest) 16 4 = g4 := by
    show ((g1 ++ g2 ++ g3 ++ g4 ++ g5 ++ rest).drop 16).take 4 = g4
    rw [d16]
    simp only [List.append_assoc]
    exact take_append_exact h4
  have t20 : substr (g1 ++ g2 ++ g3 ++ g4 ++ g5 ++ rest) 20 12 = g5 := by
    show ((g1 ++ g2 ++ g3 ++ g4 ++ g5 ++ rest).drop 20).take 12 = g5
    rw [d20]
    exact take_append_exact h5
  unfold uuidOf
  rw [t0, t8, t12, t16, t20]

lemma proximityOf_none : proximityOf none = PROXIMITY.FAR := rfl

lemma proximityOf_lt_one {d : ℝ} (h : d < 1) :
    proximityOf (some d) = PROXIMITY.IMMEDIATE := by
  show (if d < 1 then PROXIMITY.IMMEDIATE
    else if d < 3 then PROXIMITY.NEAR else PROXIMITY.FAR) = PROXIMITY.IMMEDIATE
  rw [if_pos h]

lemma proximityOf_mid {d : ℝ} (h1 : 1 ≤ d) (h3 : d < 3) :
    proximityOf (some d) = PROXIMITY.NEAR := by
  show (if d < 1 then PROXIMITY.IMMEDIATE
    else if d < 3 then PROXIMITY.NEAR else PROXIMITY.FAR) = PROXIMITY.NEAR
  rw [if_neg (not_lt.mpr h1), if_pos h3]

lemma proximityOf_ge_three {d : ℝ} (h : 3 ≤ d) :
    proximityOf (some d) = PROXIMITY.FAR := by
  show (if d < 1 then PROXIMITY.IMMEDIATE
    else if d < 3 then PROXIMITY.NEAR else PROXIMITY.FAR) = PROXIMITY.FAR
  rw [if_neg (not_lt.mpr (by linarith)), if_neg (not_lt.mpr h)]

lemma ten_rpow_lt_ten_rpow {x y : ℝ} (h : x < y) : (10:ℝ) ^ x < (10:ℝ) ^ y :=
  (Real.rpow_lt_rpow_left_iff (by norm_num)).mpr h

/-- The bounds behind the spec's `10^0.6 ≈ 3.98`: the decoded distance for
`txPower = −58`, `rssi = −70` is strictly between 3.9 and 4, in particular
at least 3 (hence classified `far`). -/
lemma ten_rpow_three_fifths_bounds :
    (3 : ℝ) ≤ (10:ℝ) ^ ((3:ℝ)/5) ∧ (39/10 : ℝ) < (10:ℝ) ^ ((3:ℝ)/5) ∧
      (10:ℝ) ^ ((3:ℝ)/5) < 4 := by
  have hx : ((10:ℝ) ^ ((3:ℝ)/5)) ^ (5:ℕ) = 1000 := by
    rw [← Real.rpow_natCast ((10:ℝ) ^ ((3:ℝ)/5)) 5, ← Real.rpow_mul (by norm_num)]
    rw [show ((3:ℝ)/5 * (5:ℕ)) = (3:ℕ) by push_cast; ring, Real.rpow_natCast]
    norm_num
  have hpos : (0:ℝ) < (10:ℝ) ^ ((3:ℝ)/5) := Real.rpow_pos_of_pos (by norm_num) _
  refine ⟨?_, ?_, ?_⟩
  · have h5 : (3:ℝ) ^ (5:ℕ) ≤ ((10:ℝ) ^ ((3:ℝ)/5)) ^ (5:ℕ) := by
      rw [hx]; norm_num
    exact (pow_le_pow_iff_left₀ (by norm_num) hpos.le (by norm_num)).mp h5
  · have h5 : ((39:ℝ)/10) ^ (5:ℕ) < ((10:ℝ) ^ ((3:ℝ)/5)) ^ (5:ℕ) := by
      rw [hx]; norm_num
    exact (pow_lt_pow_iff_left₀ (by norm_num) hpos.le (by norm_num)).mp h5
  · have h5 : ((10:ℝ) ^ ((3:ℝ)/5)) ^ (5:ℕ) < (4:ℝ) ^ (5:ℕ) := by
      rw [hx]; norm_num
    exact (pow_lt_pow_iff_left₀ hpos.le (by norm_num) (by norm_num)).mp h5

/-! ## Claim theorems -/

lemma proximityOf_ne_unknown (dOpt : Option ℝ) :
    proximityOf dOpt ≠ PROXIMITY.UNKNOWN := by
  cases dOpt with
  | none => decide
  | some d =>
    show (if d < 1 then PROXIMITY.IMMEDIATE
      else if d < 3 then PROXIMITY.NEAR else PROXIMITY.FAR) ≠ PROXIMITY.UNKNOWN
    split_ifs <;> decide

/-- C1: the spec requires `decode` to return an absent result (null) for any
payload too short to contain all required fields — e.g. the empty string or a
10-hex-character payload — and never to throw.  The code's own doc comment
("or return null if it's not a compatible device") and its declared
`Beacon | null` return type agree with the spec, but the body has no null
branch: it returns a full record built from empty substrings and NaN-derived
values.  This theorem evaluates the code at the failing inputs. -/
theorem parse_short_payload_returns_record :
    (∀ (rssi : ℤ) (now : ℕ),
      Beacon.parse "" rssi now = some ⟨"----", "NaN", none, PROXIMITY.FAR, now⟩) ∧
    (∀ (rssi : ℤ) (now : ℕ),
      Beacon.parse "AABBCCDD12" rssi now =
        some ⟨"AABBCCDD-12---", "NaN", none, PROXIMITY.FAR, now⟩) := by
  refine ⟨fun rssi now => ?_, fun rssi now => ?_⟩ <;> rfl

/-- C10: `parse` is total — for every input string and rssi it returns a
non-null record without throwing; the declared null branch of the
`Beacon | null` return type is never taken, and short or non-hex garbage
yields a record built from empty/NaN-derived values. -/
theorem parse_total :
    (∀ (s : String) (rssi : ℤ) (now : ℕ), (Beacon.parse s rssi now).isSome = true) ∧
    (∀ (rssi : ℤ) (now : ℕ),
      Beacon.parse "@@zz" rssi now =
        some ⟨"@@zz----", "NaN", none, PROXIMITY.FAR, now⟩) := by
  refine ⟨fun s rssi now => rfl, fun rssi now => ?_⟩
  rfl

/-- C4: the proximity of every record produced by `parse` is a pure function
of its computed distance with thresholds `< 1` → immediate, `< 3` → near,
else far; distance exactly 1 classifies as near and exactly 3 as far; the
decode path never assigns `unknown` (not even for a NaN distance). -/
theorem proximity_thresholds :
    (∀ (s : String) (rssi : ℤ) (now : ℕ) (b : Beacon),
      Beacon.parse s rssi now = some b →
        b.proximity = proximityOf b.distance ∧ b.proximity ≠ PROXIMITY.UNKNOWN) ∧
    (∀ d : ℝ,
      (d < 1 → proximityOf (some d) = PROXIMITY.IMMEDIATE) ∧
      (1 ≤ d → d < 3 → proximityOf (some d) = PROXIMITY.NEAR) ∧
      (3 ≤ d → proximityOf (some d) = PROXIMITY.FAR)) ∧
    proximityOf (some (1:ℝ)) = PROXIMITY.NEAR ∧
    proximityOf (some (3:ℝ)) = PROXIMITY.FAR ∧
    (∀ dOpt : Option ℝ, proximityOf dOpt ≠ PROXIMITY.UNKNOWN) := by
  refine ⟨?_, ?_, ?_, ?_, proximityOf_ne_unknown⟩
  · intro s rssi now b hp
    rw [parse_eq_some hp]
    exact ⟨rfl, proximityOf_ne_unknown _⟩
  · intro d
    exact ⟨proximityOf_lt_one, proximityOf_mid, proximityOf_ge_three⟩
  · exact proximityOf_mid le_rfl (by norm_num)
  · exact proximityOf_ge_three le_rfl

theorem proximity_thresholds_witness :
    ((Beacon.mk "----" "NaN" none PROXIMITY.FAR 7).proximity = proximityOf none ∧
      (Beacon.mk "----" "NaN" none PROXIMITY.FAR 7).proximity ≠ PROXIMITY.UNKNOWN) ∧
    proximityOf (some ((1:ℝ)/2)) = PROXIMITY.IMMEDIATE ∧
    proximityOf (some (2:ℝ)) = PROXIMITY.NEAR ∧
    proximityOf (some (5:ℝ)) = PROXIMITY.FAR :=
  ⟨proximity_thresholds.1 "" 0 7 _ rfl,
   (proximity_thresholds.2.1 (1/2)).1 (by norm_num),
   (proximity_thresholds.2.1 2).2.1 (by norm_num) (by norm_num),
   (proximity_thresholds.2.1 5).2.2 (by norm_num)⟩

/-- C7: `isEqual` returns true exactly when the other value is present with
equal `uuid`, equal `joinCode` and strictly-equal (`===`) rounded distance;
`proximity` and `lastSeen` are not consulted; an absent argument yields the
falsy result, never an error.  On present (non-NaN) rounded distances, `===`
is real-number equality (third conjunct). -/
theorem isEqual_spec :
    (∀ a : Beacon, a.isEqual none = false) ∧
    (∀ a c : Beacon,
      a.isEqual (some c) = true ↔
        c.uuid = a.uuid ∧ c.joinCode = a.joinCode ∧
          jsStrictEqNum c.getRoundedDistance a.getRoundedDistance) ∧
    (∀ x y : ℝ, jsStrictEqNum (some x) (some y) ↔ x = y) := by
  refine ⟨fun a => rfl, fun a c => ?_, fun x y => Iff.rfl⟩
  show ((c.uuid == a.uuid) && (c.joinCode == a.joinCode) &&
    decide (jsStrictEqNum c.getRoundedDistance a.getRoundedDistance)) = true ↔ _
  simp [Bool.and_eq_true, and_assoc]

/-- C8 (corrected): `getRoundedDistance` rounds the distance to one decimal
place with ties toward `+∞` (JS `Math.round`), which coincides with the
spec's round-half-away-from-zero for every non-negative distance; the spec's
examples 2.34 → 2.3, 2.36 → 2.4, 2.449999 → 2.4 and 2.45 → 2.5 all hold. -/
theorem rounding_half_up :
    (∀ (b : Beacon) (d : ℝ), b.distance = some d → 0 ≤ d →
      b.getRoundedDistance = some (roundHalfAwayTenth d)) ∧
    (Beacon.mk "u" "j" (some (117/50 : ℝ)) PROXIMITY.FAR 0).getRoundedDistance
      = some (23/10 : ℝ) ∧
    (Beacon.mk "u" "j" (some (59/25 : ℝ)) PROXIMITY.FAR 0).getRoundedDistance
      = some (12/5 : ℝ) ∧
    (Beacon.mk "u" "j" (some (2449999/1000000 : ℝ)) PROXIMITY.FAR 0).getRoundedDistance
      = some (12/5 : ℝ) ∧
    (Beacon.mk "u" "j" (some (49/20 : ℝ)) PROXIMITY.FAR 0).getRoundedDistance
      = some (5/2 : ℝ) := by
  refine ⟨?_, ?_, ?_, ?_, ?_⟩
  · intro b d hd h0
    unfold Beacon.getRoundedDistance
    rw [hd, Option.map_some']
    unfold roundHalfAwayTenth
    rw [if_pos h0, round_eq]
  · unfold Beacon.getRoundedDistance
    rw [show (Beacon.mk "u" "j" (some (117/50 : ℝ)) PROXIMITY.FAR 0).distance
      = some (117/50 : ℝ) from rfl, Option.map_some']
    rw [show round ((117/50 : ℝ) * 10) = 23 from by norm_num [round_eq]]
    norm_num
  · unfold Beacon.getRoundedDistance
    rw [show (Beacon.mk "u" "j" (some (59/25 : ℝ)) PROXIMITY.FAR 0).distance
      = some (59/25 : ℝ) from rfl, Option.map_some']
    rw [show round ((59/25 : ℝ) * 10) = 24 from by norm_num [round_eq]]
    norm_num
  · unfold Beacon.getRoundedDistance
    rw [show (Beacon.mk "u" "j" (some (2449999/1000000 : ℝ)) PROXIMITY.FAR 0).distance
      = some (2449999/1000000 : ℝ) from rfl, Option.map_some']
    rw [show round ((2449999/1000000 : ℝ) * 10) = 24 from by norm_num [round_eq]]
    norm_num
  · unfold Beacon.getRoundedDistance
    rw [show (Beacon.mk "u" "j" (some (49/20 : ℝ)) PROXIMITY.FAR 0).distance
      = some (49/20 : ℝ) from rfl, Option.map_some']
    rw [show round ((49/20 : ℝ) * 10) = 25 from by norm_num [round_eq]]
    norm_num

theorem rounding_half_up_witness :
    (Beacon.mk "u" "j" (some (2:ℝ)) PROXIMITY.NEAR 0).getRoundedDistance
      = some (roundHalfAwayTenth 2) :=
  rounding_half_up.1 _ 2 rfl (by norm_num)

/-- C8 counterexample: at the (constructor-reachable) negative distance
−2.45, the code rounds toward `+∞` and yields −2.4, while
round-half-away-from-zero — what the claim asserts for every distance
value — yields −2.5. -/
theorem rounding_away_counterexample :
    (Beacon.mk "u" "j" (some (-(49/20) : ℝ)) PROXIMITY.FAR 0).getRoundedDistance
        = some (-(12/5) : ℝ) ∧
    roundHalfAwayTenth (-(49/20) : ℝ) = -(5/2 : ℝ) ∧
    some (-(12/5) : ℝ) ≠ some (roundHalfAwayTenth (-(49/20) : ℝ)) := by
  have h1 : (Beacon.mk "u" "j" (some (-(49/20) : ℝ)) PROXIMITY.FAR 0).getRoundedDistance
      = some (-(12/5) : ℝ) := by
    unfold Beacon.getRoundedDistance
    rw [show (Beacon.mk "u" "j" (some (-(49/20) : ℝ)) PROXIMITY.FAR 0).distance
      = some (-(49/20) : ℝ) from rfl, Option.map_some']
    rw [show round ((-(49/20) : ℝ) * 10) = -24 from by norm_num [round_eq]]
    norm_num
  have h2 : roundHalfAwayTenth (-(49/20) : ℝ) = -(5/2 : ℝ) := by
    unfold roundHalfAwayTenth
    rw [if_neg (by norm_num)]
    norm_num
  exact ⟨h1, h2, by rw [h2]; norm_num⟩

lemma parse_map_proximity (s : String) (rssi : ℤ) (now : ℕ) :
    (Beacon.parse s rssi now).map Beacon.proximity =
      some (proximityOf (distanceOf s.data rssi)) := rfl

lemma intToBase36_natCast (n : ℕ) : intToBase36 (n : ℤ) = natToBase36 n := by
  unfold intToBase36
  rw [if_neg (not_lt.mpr (Int.natCast_nonneg n)), Int.toNat_natCast]

lemma joinCodeOf_some {s : List Char} {v : ℤ}
    (h : jsParseInt (majorOf s ++ minorOf s) 16 = some v) :
    joinCodeOf s = ⟨intToBase36 v⟩ := by
  unfold joinCodeOf
  rw [h]

/-- C2 (corrected): `parse` derives the identity from the 32 hex characters
at payload offsets 0–31 — the manufacturer marker is included, not skipped —
split into groups of 8/4/4/4/12 and dash-joined; for the spec's end-to-end
example payload the identity is therefore
`"AABBCCDD-1234-5678-90AB-CDEF12345678"`. -/
theorem uuid_from_offsets_0_31 :
    (∀ (g1 g2 g3 g4 g5 rest : List Char) (rssi : ℤ) (now : ℕ),
      g1.length = 8 → g2.length = 4 → g3.length = 4 → g4.length = 4 →
      g5.length = 12 →
      (Beacon.parse ⟨g1 ++ g2 ++ g3 ++ g4 ++ g5 ++ rest⟩ rssi now).map Beacon.uuid =
        some ⟨g1 ++ '-' :: g2 ++ '-' :: g3 ++ '-' :: g4 ++ '-' :: g5⟩) ∧
    (Beacon.parse examplePayload (-70) 0).map Beacon.uuid =
      some "AABBCCDD-1234-5678-90AB-CDEF12345678" := by
  constructor
  · intro g1 g2 g3 g4 g5 rest rssi now h1 h2 h3 h4 h5
    rw [parse_map_uuid, Option.some.injEq]
    exact uuidOf_decomp h1 h2 h3 h4 h5
  · rw [parse_map_uuid, Option.some.injEq]
    decide

theorem uuid_from_offsets_0_31_witness :
    (Beacon.parse ⟨"AABBCCDD".data ++ "1234".data ++ "5678".data ++
        "90AB".data ++ "CDEF12345678".data ++ "0000000300000007C6".data⟩
      (-70) 0).map Beacon.uuid =
      some ⟨"AABBCCDD".data ++ '-' :: "1234".data ++ '-' :: "5678".data ++
        '-' :: "90AB".data ++ '-' :: "CDEF12345678".data⟩ :=
  uuid_from_offsets_0_31.1 _ _ _ _ _ _ (-70) 0 rfl rfl rfl rfl rfl

/-- C2 counterexample: on the spec's own end-to-end example payload the
decoded identity is `"AABBCCDD-1234-5678-90AB-CDEF12345678"` (offsets 0–31),
not the claimed `"12345678-90AB-CDEF-1234-567890ABCDEF"` (offsets 16–47). -/
theorem uuid_offsets_counterexample :
    (Beacon.parse examplePayload (-70) 0).map Beacon.uuid =
      some "AABBCCDD-1234-5678-90AB-CDEF12345678" ∧
    (Beacon.parse examplePayload (-70) 0).map Beacon.uuid ≠
      some "12345678-90AB-CDEF-1234-567890ABCDEF" := by
  constructor
  · rw [parse_map_uuid, Option.some.injEq]
    decide
  · rw [parse_map_uuid]
    intro h
    exact absurd (Option.some.inj h) (by decide)

/-- C3: for a payload long enough that offsets 40–41 hold two hex digits,
the decoded transmit power is their base-16 value minus 256 and the distance
is `10 ^ ((txPower − rssi) / (10 × 2))`; for power byte `C6` (−58) and rssi
−70 the distance is `10^(3/5)` — strictly between 3.9 and 4, matching the
spec's `≈ 3.98` — and the proximity is `far`. -/
theorem txpower_and_distance_formula :
    (∀ (s : List Char) (c₁ c₂ : Char) (v₁ v₂ : ℕ) (rssi : ℤ) (now : ℕ) (b : Beacon),
      substr s 40 2 = [c₁, c₂] →
      digitVal 16 c₁ = some v₁ → digitVal 16 c₂ = some v₂ →
      Beacon.parse ⟨s⟩ rssi now = some b →
      b.distance = some ((10:ℝ) ^
        ((((16 * v₁ + v₂ : ℕ) : ℝ) - 256 - (rssi : ℝ)) / (10 * 2)))) ∧
    (Beacon.parse examplePayloadC6 (-70) 0).bind Beacon.distance =
      some ((10:ℝ) ^ ((3:ℝ)/5)) ∧
    (Beacon.parse examplePayloadC6 (-70) 0).map Beacon.proximity =
      some PROXIMITY.FAR ∧
    (39/10 : ℝ) < (10:ℝ) ^ ((3:ℝ)/5) ∧ (10:ℝ) ^ ((3:ℝ)/5) < 4 := by
  have hdist : distanceOf examplePayloadC6.data (-70) = some ((10:ℝ) ^ ((3:ℝ)/5)) := by
    have hpw : powerOf examplePayloadC6.data = some (-58) := by decide
    unfold distanceOf
    rw [hpw, Option.map_some', Option.some.injEq]
    congr 1
    push_cast
    norm_num
  refine ⟨?_, ?_, ?_, ten_rpow_three_fifths_bounds.2.1, ten_rpow_three_fifths_bounds.2.2⟩
  · intro s c₁ c₂ v₁ v₂ rssi now b hsub h1 h2 hp
    have hdigs : ∀ c ∈ [c₁, c₂], (digitVal 16 c).isSome := by
      intro c hc
      rcases List.mem_cons.mp hc with rfl | hc2
      · rw [h1]; rfl
      · rcases List.mem_singleton.mp hc2 with rfl
        rw [h2]; rfl
    have hdval : digitsVal 16 [c₁, c₂] = 16 * v₁ + v₂ := by
      unfold digitsVal
      simp only [List.foldl_cons, List.foldl_nil, h1, h2, Option.getD_some]
      ring
    have hval : jsParseInt [c₁, c₂] 16 = some ((16 * v₁ + v₂ : ℕ) : ℤ) := by
      rw [jsParseInt_all_digits (by simp) hdigs, Option.some.injEq, hdval]
    rw [parse_eq_some hp]
    show distanceOf s rssi = _
    unfold distanceOf powerOf
    rw [hsub, hval]
    simp only [Option.map_some', Option.some.injEq]
    congr 1
    push_cast
    ring
  · rw [parse_bind_distance]
    exact hdist
  · rw [parse_map_proximity, hdist, Option.some.injEq]
    exact proximityOf_ge_three ten_rpow_three_fifths_bounds.1

theorem txpower_and_distance_formula_witness :
    (Beacon.mk (uuidOf examplePayloadC6.data) (joinCodeOf examplePayloadC6.data)
        (distanceOf examplePayloadC6.data (-70))
        (proximityOf (distanceOf examplePayloadC6.data (-70))) 0).distance =
      some ((10:ℝ) ^
        ((((16 * 12 + 6 : ℕ) : ℝ) - 256 - ((-70 : ℤ) : ℝ)) / (10 * 2))) :=
  txpower_and_distance_formula.1 examplePayloadC6.data 'C' '6' 12 6 (-70) 0 _
    rfl rfl rfl rfl

/-- C5: for a payload long enough that offsets 32–39 hold hex digits, the
join code is obtained by concatenating the 4-character major field (offset
32) with the 4-character minor field (offset 36), reading the 8-character
concatenation as a base-16 integer and rendering that integer in base 36. -/
theorem joincode_derivation :
    ∀ (s : List Char) (rssi : ℤ) (now : ℕ) (b : Beacon),
      (∀ c ∈ substr s 32 4 ++ substr s 36 4, (digitVal 16 c).isSome) →
      (substr s 32 4 ++ substr s 36 4).length = 8 →
      Beacon.parse ⟨s⟩ rssi now = some b →
      b.joinCode = ⟨natToBase36 (digitsVal 16 (substr s 32 4 ++ substr s 36 4))⟩ := by
  intro s rssi now b hdig hlen hp
  have hne : substr s 32 4 ++ substr s 36 4 ≠ [] := by
    intro hnil
    rw [hnil] at hlen
    simp at hlen
  rw [parse_eq_some hp]
  show joinCodeOf s = _
  rw [joinCodeOf_some (jsParseInt_all_digits hne hdig), intToBase36_natCast]
  rfl

theorem joincode_derivation_witness :
    (Beacon.mk (uuidOf examplePayloadC6.data) (joinCodeOf examplePayloadC6.data)
        (distanceOf examplePayloadC6.data (-70))
        (proximityOf (distanceOf examplePayloadC6.data (-70))) 0).joinCode =
      ⟨natToBase36 (digitsVal 16 (substr examplePayloadC6.data 32 4 ++
        substr examplePayloadC6.data 36 4))⟩ :=
  joincode_derivation examplePayloadC6.data (-70) 0 _ (by decide) (by decide) rfl

/-- C9: distance monotonicity — for a fixed payload whose transmit power
parses, a larger rssi gives a strictly smaller decoded distance, and for a
fixed rssi, a payload with a strictly larger transmit power gives a strictly
larger decoded distance. -/
theorem distance_monotonicity :
    (∀ (s : String) (rssi₁ rssi₂ : ℤ) (now : ℕ) (d₁ d₂ : ℝ),
      rssi₁ < rssi₂ →
      (Beacon.parse s rssi₁ now).bind Beacon.distance = some d₁ →
      (Beacon.parse s rssi₂ now).bind Beacon.distance = some d₂ →
      d₂ < d₁) ∧
    (∀ (s₁ s₂ : String) (p₁ p₂ rssi : ℤ) (now : ℕ) (d₁ d₂ : ℝ),
      powerOf s₁.data = some p₁ → powerOf s₂.data = some p₂ → p₁ < p₂ →
      (Beacon.parse s₁ rssi now).bind Beacon.distance = some d₁ →
      (Beacon.parse s₂ rssi now).bind Beacon.distance = some d₂ →
      d₁ < d₂) := by
  constructor
  · intro s rssi₁ rssi₂ now d₁ d₂ hr h1 h2
    rw [parse_bind_distance] at h1 h2
    unfold distanceOf at h1 h2
    rcases hpw : powerOf s.data with _ | p
    · rw [hpw] at h1
      exact absurd h1 (by simp)
    · rw [hpw, Option.map_some', Option.some.injEq] at h1 h2
      rw [← h1, ← h2]
      apply ten_rpow_lt_ten_rpow
      have hc : (rssi₁ : ℝ) < (rssi₂ : ℝ) := Int.cast_lt.mpr hr
      linarith
  · intro s₁ s₂ p₁ p₂ rssi now d₁ d₂ hp1 hp2 hlt h1 h2
    rw [parse_bind_distance] at h1 h2
    unfold distanceOf at h1 h2
    rw [hp1, Option.map_some', Option.some.injEq] at h1
    rw [hp2, Option.map_some', Option.some.injEq] at h2
    rw [← h1, ← h2]
    apply ten_rpow_lt_ten_rpow
    have hc : (p₁ : ℝ) < (p₂ : ℝ) := Int.cast_lt.mpr hlt
    linarith

theorem distance_monotonicity_witness :
    ((10:ℝ) ^ ((((-58:ℤ):ℝ) - ((-69:ℤ):ℝ)) / (10 * 2)) <
      (10:ℝ) ^ ((((-58:ℤ):ℝ) - ((-70:ℤ):ℝ)) / (10 * 2))) ∧
    ((10:ℝ) ^ ((((-59:ℤ):ℝ) - ((-70:ℤ):ℝ)) / (10 * 2)) <
      (10:ℝ) ^ ((((-58:ℤ):ℝ) - ((-70:ℤ):ℝ)) / (10 * 2))) :=
  ⟨distance_monotonicity.1 examplePayloadC6 (-70) (-69) 0 _ _ (by norm_num) rfl rfl,
   distance_monotonicity.2 examplePayloadC5 examplePayloadC6 (-59) (-58) (-70) 0 _ _
     (by decide) (by decide) (by norm_num) rfl rfl⟩

lemma natToBase36_ten : natToBase36 10 = ['a'] := by
  unfold natToBase36
  rw [if_neg (by norm_num), show Nat.digits 36 10 = [10] from by norm_num]
  rfl

lemma toHexPadded8_ten : toHexPadded8 10 = "0000000a".data := by
  unfold toHexPadded8
  rw [show Nat.digits 16 10 = [10] from by norm_num]
  rfl

/-- C6 (corrected): the join-code round-trip holds for canonical join-code
strings: for every value `n < 2^32`, encoding the base-36 rendering of `n`
into the hex major/minor fields and decoding the resulting payload yields
exactly that rendering back.  For other base-36 strings — upper-case digits,
redundant leading zeros, or values of 2^32 and above — the round-trip
re-canonicalises instead of returning `S` (see the counterexample). -/
theorem joincode_roundtrip_canonical :
    ∀ (n : ℕ), n < 2 ^ 32 → ∀ (rssi : ℤ) (now : ℕ) (pay : String),
      encodePayload (natToBase36 n) = some pay →
      (Beacon.parse pay rssi now).map Beacon.joinCode = some ⟨natToBase36 n⟩ := by
  intro n hn rssi now pay henc
  unfold encodePayload at henc
  rw [jsParseInt_natToBase36, Option.map_some', Option.some.injEq,
    Int.toNat_natCast] at henc
  subst henc
  rw [parse_map_joinCode, Option.some.injEq]
  show joinCodeOf (List.replicate 32 '0' ++ toHexPadded8 n ++ ['c', '6']) = _
  have hmm : majorOf (List.replicate 32 '0' ++ toHexPadded8 n ++ ['c', '6']) ++
      minorOf (List.replicate 32 '0' ++ toHexPadded8 n ++ ['c', '6']) =
        toHexPadded8 n :=
    major_minor_append (by simp) (toHexPadded8_length hn)
  have hjs : jsParseInt
      (majorOf (List.replicate 32 '0' ++ toHexPadded8 n ++ ['c', '6']) ++
        minorOf (List.replicate 32 '0' ++ toHexPadded8 n ++ ['c', '6'])) 16 =
      some ((n : ℕ) : ℤ) := by
    rw [hmm]
    exact jsParseInt_toHexPadded8 n
  rw [joinCodeOf_some hjs, intToBase36_natCast]

theorem joincode_roundtrip_canonical_witness :
    (Beacon.parse "000000000000000000000000000000000000000ac6" (-70) 0).map
        Beacon.joinCode = some ⟨natToBase36 10⟩ :=
  joincode_roundtrip_canonical 10 (by norm_num) (-70) 0 _ (by
    unfold encodePayload
    rw [jsParseInt_natToBase36, Option.map_some', Option.some.injEq,
      Int.toNat_natCast, toHexPadded8_ten]
    decide)

/-- C6 counterexample: the claim quantifies over every base-36 string `S`;
for `S = "A"` (base-36 value 10) encoding and decoding yields `"a"` — JS
`toString(36)` renders lower case — so the round-trip does not return `S`. -/
theorem joincode_roundtrip_counterexample :
    encodePayload "A".data =
      some "000000000000000000000000000000000000000ac6" ∧
    (Beacon.parse "000000000000000000000000000000000000000ac6" (-70) 0).map
        Beacon.joinCode = some "a" ∧
    ("a" : String) ≠ "A" := by
  refine ⟨?_, ?_, by decide⟩
  · unfold encodePayload
    rw [show jsParseInt "A".data 36 = some 10 from by decide,
      Option.map_some', Option.some.injEq,
      show ((10:ℤ)).toNat = 10 from rfl, toHexPadded8_ten]
    decide
  · rw [parse_map_joinCode, Option.some.injEq]
    have hjs : jsParseInt
        (majorOf "000000000000000000000000000000000000000ac6".data ++
          minorOf "000000000000000000000000000000000000000ac6".data) 16 =
        some 10 := by decide
    rw [joinCodeOf_some hjs]
    have h10 : intToBase36 (10:ℤ) = ['a'] := by
      unfold intToBase36
      rw [if_neg (by norm_num), show ((10:ℤ)).toNat = 10 from rfl, natToBase36_ten]
    rw [h10]

end Spot
